import Mathlib

/-!
Shallow embedding of the Uno rules engine (src/cards.py, src/players.py,
src/main.py) and verification of its specification claims.

Python values are modelled as follows: the one-character colour strings
"R","G","B","Y","W" become the enumeration `Colour`; the action strings
"+2","rev","skip","+4" become the enumeration `Action` (each keeps a map back
to its source string, used wherever the source compares strings); `None` is
`Option.none`; Python `int` is `Int` (or `Nat` where the source value is a
count); a Python list is a `List`; an operation that can raise returns an
`Option`, with `none` standing for the raised exception (the mutable inputs
are left unchanged by a raising call, which value-passing models for free).
-/

namespace Uno

/-- Card colour, stored in the source as the one-character string
"R", "G", "B", "Y" or "W" (cards.py line 79). -/
inductive Colour
  | R
  | G
  | B
  | Y
  | W
deriving DecidableEq

/-- Card action, stored in the source as the string "+2", "rev", "skip"
or "+4" (main.py lines 23-29). -/
inductive Action
  | DrawTwo
  | Reverse
  | Skip
  | WildDrawFour
deriving DecidableEq

/-- A card (cards.py lines 6-23): colour, optional number, optional action.
The field order matches the insertion order of `Card.__dict__`
(`_colour`, `number`, `action`), which `__lt__` and `attributes` rely on. -/
structure Card where
  colour : Colour
  number : Option Nat
  action : Option Action
deriving DecidableEq

/-- The source string for a colour (cards.py line 79). -/
def colourStr : Colour → String
  | Colour.R => "R"
  | Colour.G => "G"
  | Colour.B => "B"
  | Colour.Y => "Y"
  | Colour.W => "W"

/-- The source string for an action (main.py lines 23-29). -/
def actionStr : Action → String
  | Action.DrawTwo => "+2"
  | Action.Reverse => "rev"
  | Action.Skip => "skip"
  | Action.WildDrawFour => "+4"

/-- Lexicographic comparison of character lists by code point: exactly
Python's `<` on `str` values, which cards.py line 65 uses on the
colour/action strings. -/
def charListLt : List Char → List Char → Bool
  | [], [] => false
  | [], _ :: _ => true
  | _ :: _, [] => false
  | c :: cs, d :: ds => if c < d then true else if d < c then false else charListLt cs ds

/-- Python string comparison. -/
def strLt (a b : String) : Bool := charListLt a.data b.data

/-- Sentinel colour key of `Card.__lt__` (cards.py lines 56-57): the wild
colour "W" is replaced by "Z", which is greater than every real colour
letter. -/
def colourKey (c : Colour) : String := if c = Colour.W then "Z" else colourStr c

/-- Sentinel number key of `Card.__lt__` (cards.py lines 58-59): a missing
number is replaced by 10. -/
def numberKey : Option Nat → Nat
  | none => 10
  | some n => n

/-- Sentinel action key of `Card.__lt__` (cards.py lines 60-61): a missing
action is replaced by the string "+". -/
def actionKey : Option Action → String
  | none => "+"
  | some a => actionStr a

/-- One step of the attribute loop of `Card.__lt__` (cards.py lines 63-71):
return true on `<`, false on `>`, and continue with the remaining
attributes on equality. -/
def lexStep {α : Type} (lt : α → α → Bool) (x y : α) (rest : Bool) : Bool :=
  if lt x y then true else if lt y x then false else rest

/-- `Card.__lt__` (cards.py lines 39-71): compare the sentinel keys of
`_colour`, then `number`, then `action`, in the order of `__dict__`,
returning false when every attribute is equal. -/
def Card.lt (a b : Card) : Bool :=
  lexStep strLt (colourKey a.colour) (colourKey b.colour)
    (lexStep Nat.blt (numberKey a.number) (numberKey b.number)
      (lexStep strLt (actionKey a.action) (actionKey b.action) false))

/-- The plain wild card `Card("W")`. -/
def plainWild : Card := { colour := Colour.W, number := none, action := none }

/-- The wild-draw-four card `Card("W", action="+4")`. -/
def wildDrawFour : Card := { colour := Colour.W, number := none, action := some Action.WildDrawFour }

/-- `Card.value` (cards.py lines 104-118): the number if present, else 20 for
"+2"/"rev"/"skip", else 50 (plain wild and "+4"). -/
def Card.value (c : Card) : Int :=
  match c.number with
  | some n => (n : Int)
  | none =>
    match c.action with
    | some Action.DrawTwo => 20
    | some Action.Reverse => 20
    | some Action.Skip => 20
    | _ => 50

/-- `Pile.value` (cards.py lines 172-180): total value of the cards. -/
def Pile.value (cards : List Card) : Int := (cards.map Card.value).sum

/-- The elementwise comparison `[i == j is not None for i, j in
zip(card.attributes, top_card.attributes)]` of `Player.playable_card`
(players.py line 113). `attributes` lists `__dict__` values in insertion
order `_colour`, `number`, `action` (cards.py lines 84-92); the chained
comparison means "equal, and the top card attribute is not None" (a colour
is never None). -/
def attribute_matches (card top : Card) : List Bool :=
  [card.colour == top.colour,
   card.number == top.number && top.number.isSome,
   card.action == top.action && top.action.isSome]

/-- The list `[top_card.colour == card.colour for card in self.hand.cards]`
of `Player.playable_card` (players.py line 114). -/
def colour_matches (hand : List Card) (top : Card) : List Bool :=
  hand.map (fun h => top.colour == h.colour)

/-- `Player.playable_card` (players.py lines 99-120) with `top` the top of
the discard pile: playable when the card is the plain wild or some
attribute matches; otherwise when the card is the unresolved wild-draw-four
and no card of the player's hand shares the top card's colour. -/
def playable_card (hand : List Card) (card : Card) (top : Card) : Bool :=
  if card == plainWild || (attribute_matches card top).contains true then true
  else if card == wildDrawFour && !((colour_matches hand top).contains true) then true
  else false

/-- `Pile.remove` (cards.py lines 202-209), i.e. `list.remove`: drop the
first structurally-equal occurrence; `none` models the ValueError raised
when the card is absent (the pile is then left unchanged). -/
def Pile.remove : List Card → Card → Option (List Card)
  | [], _ => none
  | x :: xs, c => if x = c then some xs else (Pile.remove xs c).map (fun l => x :: l)

/-- `Deck.draw` (cards.py lines 259-266), i.e. `list.pop(-1)`: remove and
return the last card; `none` models the IndexError raised on an empty
deck. -/
def Deck.draw (cards : List Card) : Option (Card × List Card) :=
  match cards.getLast? with
  | none => none
  | some c => some (c, cards.dropLast)

/-- A heap of card objects, used to state the aliasing claim about
`Pile.add`: cell indices play the role of Python object identities. -/
abbrev Store := List Card

/-- One unit of `Pile.add` (cards.py lines 182-200) over an explicit store:
the pile holds references; a wild-coloured card is copied into a fresh cell
(so later colour resolution is per-instance) while any other card is
appended by reference. A dangling reference adds nothing (unreachable in
the source, where the argument is always a live object). -/
def addUnit (sigma : Store) (refs : List Nat) (r : Nat) : Store × List Nat :=
  match sigma[r]? with
  | some c =>
    if c.colour = Colour.W then
      (sigma ++ [c], refs ++ [sigma.length])
    else
      (sigma, refs ++ [r])
  | none => (sigma, refs)

/-- `Pile.add` with `quantity` units (the `for _ in range(quantity)` loop of
cards.py line 191). -/
def addQuantity (sigma : Store) (refs : List Nat) (r : Nat) : Nat → Store × List Nat
  | 0 => (sigma, refs)
  | Nat.succ k =>
    let p := addUnit sigma refs r
    addQuantity p.1 p.2 r k

/-- Resolution of a wild card's colour (`Card.wild_colour`, cards.py lines
120-135) seen from the store: the chosen colour is written into the cell of
the resolved card object, and nothing else. -/
def setColour (sigma : Store) (r : Nat) (col : Colour) : Store :=
  match sigma[r]? with
  | some c => sigma.set r { c with colour := col }
  | none => sigma

/-- The colour-reset loop body of `Pile.reset` (cards.py lines 218-220):
a card whose number is absent and whose action is absent or "+4" gets its
colour set back to "W". -/
def resetWildColour (c : Card) : Card :=
  if c.number = none ∧ (c.action = none ∨ c.action = some Action.WildDrawFour) then
    { c with colour := Colour.W }
  else c

/-- The number of cards a deck value holds, when it is a card list at all:
`random.shuffle` (and any later draw) needs `len()`, so a deck whose
`cards` field holds a single `Card` object raises TypeError, modelled as
`none`. -/
def deckCardCount : Card ⊕ List Card → Option Nat
  | Sum.inl _ => none
  | Sum.inr l => some l.length

/-- `Pile.reset` (cards.py lines 211-224). The loop resets the colours of
`self.cards[:-1]` in place, but line 221 then executes
`deck.cards = self.cards[-1]`: the deck's `cards` field receives the single
top-card object (not the list `self.cards[:-1]`), so the field is modelled
as `Card ⊕ List Card`; the reset cards are referenced by nothing afterwards
and are dropped. The pile keeps `[self.top]`. `none` models the IndexError
of `self.cards[-1]` on an empty pile. Returns (deck contents, pile
contents). -/
def Pile.reset (pile : List Card) : Option ((Card ⊕ List Card) × List Card) :=
  match pile.getLast? with
  | none => none
  | some top =>
    let _loop := pile.dropLast.map resetWildColour
    some (Sum.inl top, [top])

/-- A player (players.py lines 4-21): name, points and a hand of cards. -/
structure PlayerM where
  name : String
  points : Int
  hand : List Card
deriving DecidableEq

/-- The Python comparison `(a.points, a.name, a) > (b.points, b.name, b)` on
the tuples built by `Group.standings` (players.py line 178): points first,
then name by string comparison. The third component (the `Player` object)
is only reached when points and name both tie, where CPython raises
TypeError (Player defines no ordering); theorems about standings therefore
assume distinct (points, name) keys. -/
def keyGt (a b : PlayerM) : Bool :=
  decide (b.points < a.points) || (decide (a.points = b.points) && strLt b.name a.name)

/-- The order in which `list.sort(reverse=True)` leaves the standings
tuples: `a` may precede `b` when `b` is not strictly greater. -/
def standingsRel (a b : PlayerM) : Prop := keyGt b a = false

instance : DecidableRel standingsRel :=
  fun a b => inferInstanceAs (Decidable (keyGt b a = false))

/-- `Group.standings` (players.py lines 170-182): sort the players by the
descending tuple order. `list.sort(reverse=True)` is a stable sort under
the reversed comparison, i.e. an insertion sort that lets an element move
ahead of exactly the elements it strictly beats. -/
def standings (players : List PlayerM) : List PlayerM :=
  List.insertionSort standingsRel players

/-- The game state (players.py lines 233-247). -/
structure State where
  turn_order : Int
  skip : Int
  forced_draw : Int
deriving DecidableEq

/-- `State.neutralise` (players.py lines 249-255): clear skip and forced
draw, leave the turn order alone. -/
def State.neutralise (st : State) : State := { st with skip := 0, forced_draw := 0 }

/-- `State.update` (players.py lines 257-274). "rev" flips the turn order
and neutralises; "skip" sets skip with no forced draw; an action containing
"+" (only "+2" and "+4" do) sets skip and forces `int(action[1:])` cards;
anything else (a number card or the plain wild, action None) neutralises. -/
def State.update (st : State) (card : Card) : State :=
  match card.action with
  | some Action.Reverse => State.neutralise { st with turn_order := st.turn_order * -1 }
  | some Action.Skip => { st with skip := 1, forced_draw := 0 }
  | some Action.DrawTwo => { st with skip := 1, forced_draw := 2 }
  | some Action.WildDrawFour => { st with skip := 1, forced_draw := 4 }
  | none => State.neutralise st

/-- The two operations the source ever applies to a `State` after its
construction: `update` (main.py lines 93 and 247) and `neutralise`
(main.py line 226). -/
inductive StateOp
  | update (c : Card)
  | neutralise

/-- Apply one state operation. -/
def applyOp (st : State) : StateOp → State
  | StateOp.update c => st.update c
  | StateOp.neutralise => st.neutralise

/-- The state reached from the initial `State()` of main.py line 70
(turn_order 1, skip 0, forced_draw 0) by a sequence of operations. -/
def runOps (ops : List StateOp) : State :=
  ops.foldl applyOp { turn_order := 1, skip := 0, forced_draw := 0 }

/-- The invariant maintained on every state the source can construct. -/
def StateInv (st : State) : Prop := (0 < st.forced_draw → st.skip = 1) ∧ 0 ≤ st.forced_draw

/-- A group of players with the active-player cursor (players.py lines
138-148). `current_player` is always `players[player_number]` and is kept
derived. -/
structure Group where
  players : List PlayerM
  player_number : Int
deriving DecidableEq

/-- `Group.size` (players.py lines 160-168). -/
def Group.size (g : Group) : Int := (g.players.length : Int)

/-- `Group.initial` (players.py lines 202-210):
`player_number = min(state.turn_order, 0) % size`. Python `%` with a
positive right operand is `Int.emod`. -/
def Group.initial (g : Group) (st : State) : Group :=
  { g with player_number := min st.turn_order 0 % Group.size g }

/-- `Group.next` (players.py lines 222-230):
`player_number = (player_number + state.turn_order) % size`. -/
def Group.next (g : Group) (st : State) : Group :=
  { g with player_number := (g.player_number + st.turn_order) % Group.size g }

/-- The current player `players[player_number]` (players.py line 210). -/
def Group.current (g : Group) : Option PlayerM := g.players[g.player_number.toNat]?

/-- `Player.draw` (players.py lines 33-49): move `n` cards one at a time
from the top of the deck into the hand (`Pile.add` appends; a drawn wild
card is appended as an independent copy with the same attributes, which is
the same card value). `none` models the IndexError when the deck runs
out. Returns (deck, hand) afterwards. -/
def Player.draw (n : Nat) (deck hand : List Card) : Option (List Card × List Card) :=
  match n with
  | 0 => some (deck, hand)
  | Nat.succ k =>
    match Deck.draw deck with
    | none => none
    | some (c, deck') => Player.draw k deck' (hand ++ [c])

/-- The full round configuration handled by `main.game` (main.py lines
195-254): the group, the deck, the discard pile and the state. -/
structure Config where
  players : List PlayerM
  player_number : Int
  deck : List Card
  discard : List Card
  state : State
deriving DecidableEq

/-- Lines 235-237 of main.py, inside the hand-is-empty branch: when
`state.forced_draw > 0`, the player at
`(player_number + state.turn_order) % size` draws `state.forced_draw`
cards from the deck; otherwise nothing happens. `none` models an
out-of-range cursor or an exhausted deck (both raise in the source). -/
def forcedDrawStep (c : Config) : Option Config :=
  if 0 < c.state.forced_draw then
    let idx := ((c.player_number + c.state.turn_order) % (c.players.length : Int)).toNat
    match c.players[idx]? with
    | none => none
    | some p =>
      match Player.draw c.state.forced_draw.toNat c.deck p.hand with
      | none => none
      | some (deck', hand') =>
        some { c with deck := deck', players := c.players.set idx { p with hand := hand' } }
  else some c

/-- `Group.give_points` (players.py lines 193-200): the current player
gains the total hand value of every other player (`player is not
self.current_player` skips exactly the current player's single object,
i.e. the entry at the cursor). Identity on an out-of-range cursor
(unreachable in the source). -/
def give_points (c : Config) : Config :=
  match c.players[c.player_number.toNat]? with
  | none => c
  | some cur =>
    let game_points := ((c.players.eraseIdx c.player_number.toNat).map (fun p => Pile.value p.hand)).sum
    { c with players := c.players.set c.player_number.toNat { cur with points := cur.points + game_points } }

/-- `Group.winner_first` (players.py lines 212-220): pop the first player
and append, `pos` times, where `pos = players.index(current_player)` is
the cursor position (list.index compares by identity here, and each player
object occurs once). -/
def winner_first (c : Config) : Config :=
  { c with players := c.players.rotateLeft c.player_number.toNat }

/-- Lines 233-242 of main.py: the branch `main.game` takes when the current
player's hand has just emptied. Note the source reads `state.forced_draw`
here without ever having fed the winning card to `state.update` (update
only happens on line 247, in the not-won branch). -/
def gameWinBranch (c : Config) : Option Config :=
  (forcedDrawStep c).map (fun c1 => winner_first (give_points c1))

/-- A blue 5. -/
def cardB5 : Card := { colour := Colour.B, number := some 5, action := none }

/-- A red draw-two. -/
def cardRplus2 : Card := { colour := Colour.R, number := none, action := some Action.DrawTwo }

/-- The configuration right after player A, holding only a red "+2", plays
it and empties their hand: the round started one turn ago (state still the
initial `State()`), player B holds a blue 5, the deck still has cards. -/
def cfgC1 : Config :=
  { players := [{ name := "A", points := 0, hand := [] },
                { name := "B", points := 0, hand := [cardB5] }],
    player_number := 0,
    deck := [{ colour := Colour.G, number := some 1, action := none },
             { colour := Colour.Y, number := some 2, action := none }],
    discard := [cardRplus2],
    state := { turn_order := 1, skip := 0, forced_draw := 0 } }

/-- A plain wild card resolved to green. -/
def wildResolvedGreen : Card := { colour := Colour.G, number := none, action := none }

/-- The top of the example discard pile of C2. -/
def topC2 : Card := { colour := Colour.R, number := some 5, action := none }

/-- The example discard pile of C2: four wilds resolved to green below a
red 5. -/
def pileC2 : List Card :=
  [wildResolvedGreen, wildResolvedGreen, wildResolvedGreen, wildResolvedGreen, topC2]

/-- A red 5. -/
def cardR5 : Card := { colour := Colour.R, number := some 5, action := none }

/-- A blue 7. -/
def cardB7 : Card := { colour := Colour.B, number := some 7, action := none }

/-- A red reverse. -/
def cardRrev : Card := { colour := Colour.R, number := none, action := some Action.Reverse }

/-- A fresh player with the given name. -/
def playerNamed (n : String) : PlayerM := { name := n, points := 0, hand := [] }

/-- A four-player group, cursor unset (0). -/
def g4 : Group :=
  { players := [playerNamed "P1", playerNamed "P2", playerNamed "P3", playerNamed "P4"],
    player_number := 0 }

/-- A state whose turn order is already reversed. -/
def stRev : State := { turn_order := -1, skip := 0, forced_draw := 0 }

/-- The initial state of a round. -/
def stFwd : State := { turn_order := 1, skip := 0, forced_draw := 0 }

/-- Store lookup followed by the in-place write of `Card.wild_colour`,
restated as an equation. -/
theorem setColour_of_lookup {S : Store} {r : Nat} {c : Card} (h : S[r]? = some c)
    (col : Colour) : setColour S r col = S.set r { c with colour := col } := by
  unfold setColour
  rw [h]

/-! Helper lemmas. -/

theorem charListLt_irrefl : ∀ (xs : List Char), charListLt xs xs = false := by
  intro xs
  induction xs with
  | nil => rfl
  | cons x xs' ih => simp [charListLt, lt_irrefl, ih]

theorem charListLt_asymm : ∀ {xs ys : List Char}, charListLt xs ys = true →
    charListLt ys xs = false := by
  intro xs
  induction xs with
  | nil =>
    intro ys h
    cases ys with
    | nil => cases h
    | cons y ys' => rfl
  | cons x xs' ih =>
    intro ys h
    cases ys with
    | nil => cases h
    | cons y ys' =>
      simp only [charListLt] at h ⊢
      by_cases h1 : x < y
      · rw [if_neg (lt_asymm h1), if_pos h1]
      · by_cases h2 : y < x
        · rw [if_neg h1, if_pos h2] at h
          cases h
        · rw [if_neg h1, if_neg h2] at h
          rw [if_neg h2, if_neg h1]
          exact ih h

theorem charListLt_trans : ∀ {xs ys zs : List Char}, charListLt xs ys = true →
    charListLt ys zs = true → charListLt xs zs = true := by
  intro xs
  induction xs with
  | nil =>
    intro ys zs h1 h2
    cases ys with
    | nil => cases h1
    | cons y ys' =>
      cases zs with
      | nil => cases h2
      | cons z zs' => rfl
  | cons x xs' ih =>
    intro ys zs h1 h2
    cases ys with
    | nil => cases h1
    | cons y ys' =>
      cases zs with
      | nil => cases h2
      | cons z zs' =>
        simp only [charListLt] at h1 h2 ⊢
        by_cases hxy : x < y
        · by_cases hyz : y < z
          · rw [if_pos (lt_trans hxy hyz)]
          · by_cases hzy : z < y
            · rw [if_neg hyz, if_pos hzy] at h2
              cases h2
            · have hyeq : y = z := le_antisymm (not_lt.mp hzy) (not_lt.mp hyz)
              rw [if_pos (hyeq ▸ hxy)]
        · by_cases hyx : y < x
          · rw [if_neg hxy, if_pos hyx] at h1
            cases h1
          · have hxeq : x = y := le_antisymm (not_lt.mp hyx) (not_lt.mp hxy)
            subst hxeq
            rw [if_neg hxy, if_neg hyx] at h1
            by_cases hyz : x < z
            · rw [if_pos hyz]
            · by_cases hzy : z < x
              · rw [if_neg hyz, if_pos hzy] at h2
                cases h2
              · rw [if_neg hyz, if_neg hzy] at h2 ⊢
                exact ih h1 h2

theorem charListLt_tri : ∀ (xs ys : List Char), charListLt xs ys = true ∨ xs = ys ∨
    charListLt ys xs = true := by
  intro xs
  induction xs with
  | nil =>
    intro ys
    cases ys with
    | nil => exact Or.inr (Or.inl rfl)
    | cons y ys' => exact Or.inl rfl
  | cons x xs' ih =>
    intro ys
    cases ys with
    | nil => exact Or.inr (Or.inr rfl)
    | cons y ys' =>
      rcases lt_trichotomy x y with h | h | h
      · left
        simp [charListLt, h]
      · subst h
        rcases ih ys' with h' | h' | h'
        · left
          simp [charListLt, lt_irrefl, h']
        · right
          left
          rw [h']
        · right
          right
          simp [charListLt, lt_irrefl, h']
      · right
        right
        simp [charListLt, h]

theorem strLt_irrefl (s : String) : strLt s s = false := charListLt_irrefl s.data

theorem strLt_asymm {a b : String} (h : strLt a b = true) : strLt b a = false :=
  charListLt_asymm h

theorem strLt_false_trans {a b c : String} (h1 : strLt a b = false)
    (h2 : strLt b c = false) : strLt a c = false := by
  cases hc : strLt a c with
  | false => rfl
  | true =>
    exfalso
    rcases charListLt_tri a.data b.data with ht | ht | ht
    · rw [strLt] at h1
      rw [ht] at h1
      cases h1
    · rw [strLt, ht] at hc
      rw [strLt] at h2
      rw [hc] at h2
      cases h2
    · have := charListLt_trans ht hc
      rw [strLt] at h2
      rw [this] at h2
      cases h2

theorem natBlt_asymm {x y : Nat} (h : Nat.blt x y = true) : Nat.blt y x = false := by
  rw [Nat.blt_eq] at h
  rw [Bool.eq_false_iff, Ne, Nat.blt_eq]
  omega

theorem lexStep_of_lt {α : Type} {lt : α → α → Bool} {x y : α} (r : Bool)
    (h : lt x y = true) : lexStep lt x y r = true := by
  simp [lexStep, h]

theorem lexStep_irrefl {α : Type} {lt : α → α → Bool} {x : α} (r : Bool)
    (h : lt x x = false) : lexStep lt x x r = r := by
  simp [lexStep, h]

theorem lexStep_asymm {α : Type} {lt : α → α → Bool}
    (hasym : ∀ x y, lt x y = true → lt y x = false) (x y : α) {r s : Bool}
    (hrs : r = true → s = false) (h : lexStep lt x y r = true) :
    lexStep lt y x s = false := by
  unfold lexStep at h ⊢
  by_cases h1 : lt x y = true
  · simp [h1, hasym x y h1]
  · rw [Bool.not_eq_true] at h1
    by_cases h2 : lt y x = true
    · rw [if_neg (by simp [h1]), if_pos h2] at h
      cases h
    · rw [Bool.not_eq_true] at h2
      rw [if_neg (by simp [h1]), if_neg (by simp [h2])] at h
      rw [if_neg (by simp [h2]), if_neg (by simp [h1])]
      exact hrs h

theorem contains_true_eq_false {l : List Bool} (h : l.contains true = false) :
    ∀ b ∈ l, b = false := by
  induction l with
  | nil =>
    intro b hb
    cases hb
  | cons x xs ih =>
    rw [List.contains_cons, Bool.or_eq_false_iff] at h
    intro b hb
    rcases List.mem_cons.mp hb with hb | hb
    · subst hb
      have := h.1
      cases b
      · rfl
      · cases this
    · exact ih h.2 b hb

theorem keyGt_eq_false_iff {a b : PlayerM} :
    keyGt a b = false ↔
      a.points ≤ b.points ∧ (a.points = b.points → strLt b.name a.name = false) := by
  unfold keyGt
  cases h3 : strLt b.name a.name with
  | false =>
    simp only [h3, Bool.and_false, Bool.or_false, decide_eq_false_iff_not, Int.not_lt]
    constructor
    · intro h
      exact ⟨h, fun _ => trivial⟩
    · intro h
      exact h.1
  | true =>
    simp only [h3, Bool.and_true, Bool.or_eq_false_iff, decide_eq_false_iff_not, Int.not_lt]
    constructor
    · intro h
      exact ⟨h.1, fun he => absurd he h.2⟩
    · intro h
      refine ⟨h.1, fun he => ?_⟩
      have := h.2 he
      cases this

theorem keyGt_not_both {a b : PlayerM} (h : keyGt a b = true) : keyGt b a = false := by
  simp only [keyGt, Bool.or_eq_true, Bool.and_eq_true, decide_eq_true_eq] at h
  rw [keyGt_eq_false_iff]
  rcases h with h | ⟨h1, h2⟩
  · exact ⟨le_of_lt h, fun he => absurd he (by omega)⟩
  · exact ⟨le_of_eq h1.symm, fun _ => strLt_asymm h2⟩

instance : IsTotal PlayerM standingsRel := by
  constructor
  intro a b
  cases h : keyGt b a with
  | false => exact Or.inl h
  | true => exact Or.inr (keyGt_not_both h)

instance : IsTrans PlayerM standingsRel := by
  constructor
  intro a b c hab hbc
  obtain ⟨hab1, hab2⟩ := keyGt_eq_false_iff.mp hab
  obtain ⟨hbc1, hbc2⟩ := keyGt_eq_false_iff.mp hbc
  refine keyGt_eq_false_iff.mpr ⟨le_trans hbc1 hab1, fun he => ?_⟩
  have h1 : b.points = a.points := by omega
  have h2 : c.points = b.points := by omega
  exact strLt_false_trans (hab2 h1) (hbc2 h2)

theorem applyOp_StateInv (st : State) (op : StateOp) : StateInv (applyOp st op) := by
  cases op with
  | neutralise =>
    constructor
    · intro h
      simp [applyOp, State.neutralise] at h
    · simp [applyOp, State.neutralise]
  | update c =>
    rcases hc : c.action with _ | a
    · constructor
      · intro h
        simp [applyOp, State.update, hc, State.neutralise] at h
      · simp [applyOp, State.update, hc, State.neutralise]
    · cases a <;> constructor <;>
        simp [applyOp, State.update, hc, State.neutralise]

theorem foldl_StateInv (l : List StateOp) (st : State) (h : StateInv st) :
    StateInv (l.foldl applyOp st) := by
  induction l generalizing st with
  | nil => exact h
  | cons op l ih => exact ih _ (applyOp_StateInv st op)

theorem runOps_StateInv (ops : List StateOp) : StateInv (runOps ops) :=
  foldl_StateInv ops _ ⟨fun h => absurd h (by simp), by simp⟩

theorem remove_eq_none_iff (cards : List Card) (c : Card) :
    Pile.remove cards c = none ↔ c ∉ cards := by
  induction cards with
  | nil => simp [Pile.remove]
  | cons x xs ih =>
    by_cases h : x = c
    · subst h
      simp [Pile.remove]
    · simp [Pile.remove, h, ih, Option.map_eq_none', Ne.symm h]

theorem remove_first (cards : List Card) (c : Card) (hc : c ∈ cards) :
    ∃ l₁ l₂, cards = l₁ ++ c :: l₂ ∧ c ∉ l₁ ∧ Pile.remove cards c = some (l₁ ++ l₂) := by
  induction cards with
  | nil => cases hc
  | cons x xs ih =>
    by_cases h : x = c
    · subst h
      exact ⟨[], xs, rfl, by simp, by simp [Pile.remove]⟩
    · have hc' : c ∈ xs := by
        rcases List.mem_cons.mp hc with h1 | h1
        · exact absurd h1.symm h
        · exact h1
      obtain ⟨l₁, l₂, he, hn, hr⟩ := ih hc'
      refine ⟨x :: l₁, l₂, by simp [he], ?_, by simp [Pile.remove, h, hr]⟩
      intro hmem
      rcases List.mem_cons.mp hmem with h1 | h1
      · exact h h1.symm
      · exact hn h1

theorem addQuantity_spec (q : Nat) : ∀ (sigma : Store) (refs : List Nat) (r : Nat) (c : Card),
    sigma[r]? = some c → c.colour = Colour.W →
    addQuantity sigma refs r q =
      (sigma ++ List.replicate q c, refs ++ List.range' sigma.length q) := by
  induction q with
  | zero =>
    intro sigma refs r c h hw
    simp [addQuantity]
  | succ k ih =>
    intro sigma refs r c h hw
    have hr : r < sigma.length := (List.getElem?_eq_some.mp h).1
    have h' : (sigma ++ [c])[r]? = some c := by
      rw [List.getElem?_append_left hr]
      exact h
    simp only [addQuantity, addUnit, h, hw, if_true]
    rw [ih (sigma ++ [c]) (refs ++ [sigma.length]) r c h' hw]
    simp [List.append_assoc, List.replicate_succ, List.range'_succ, List.length_append]

/-! Claim theorems. -/

/-- C4 counterexample: the claim says an absent action sorts after all actions, so
with equal colour and number keys the plain Wild (absent action) must sort after the
WildDrawFour; but the sentinel "+" compares below the action string "+4", so the code
puts the plain Wild strictly before the WildDrawFour. -/
theorem C4_counterexample :
    Card.lt plainWild wildDrawFour = true ∧ Card.lt wildDrawFour plainWild = false := by
  decide

/-- C4 (amended): card ordering is a strict order (never both a < b and b < a),
lexicographic over (colour, number, action); colour Wild sorts after the real
colours and an absent number sorts after the numbers 0-9, but an absent action
sorts BEFORE all actions (the sentinel "+" is below "+2", "+4", "rev", "skip"
in string order). -/
theorem C4_amended :
    (∀ a b : Card, Card.lt a b = true → Card.lt b a = false) ∧
    (∀ a b : Card, a.colour = Colour.W → b.colour ≠ Colour.W → Card.lt b a = true) ∧
    (∀ a b : Card, colourKey a.colour = colourKey b.colour → a.number = none →
      ∀ n : Nat, b.number = some n → n ≤ 9 → Card.lt b a = true) ∧
    (∀ a b : Card, colourKey a.colour = colourKey b.colour →
      numberKey a.number = numberKey b.number → a.action = none →
      ∀ x : Action, b.action = some x → Card.lt a b = true) := by
  refine ⟨?_, ?_, ?_, ?_⟩
  · intro a b h
    unfold Card.lt at h ⊢
    refine lexStep_asymm (fun x y hxy => strLt_asymm hxy) _ _ (fun h2 => ?_) h
    refine lexStep_asymm (fun x y hxy => natBlt_asymm hxy) _ _ (fun h3 => ?_) h2
    refine lexStep_asymm (fun x y hxy => strLt_asymm hxy) _ _ (fun h4 => ?_) h3
    cases h4
  · intro a b ha hb
    unfold Card.lt
    rw [ha]
    have hlt : strLt (colourKey b.colour) (colourKey Colour.W) = true := by
      cases hc : b.colour
      · decide
      · decide
      · decide
      · decide
      · exact absurd hc hb
    exact lexStep_of_lt _ hlt
  · intro a b hck hna n hbn hn9
    unfold Card.lt
    rw [← hck, lexStep_irrefl _ (strLt_irrefl _), hbn, hna]
    refine lexStep_of_lt _ ?_
    show Nat.blt (numberKey (some n)) (numberKey none) = true
    rw [Nat.blt_eq]
    show n < 10
    omega
  · intro a b hck hnk ha x hb
    unfold Card.lt
    rw [hck, lexStep_irrefl _ (strLt_irrefl _), hnk,
      lexStep_irrefl _ (by rw [Bool.eq_false_iff, Ne, Nat.blt_eq]; omega), ha, hb]
    refine lexStep_of_lt _ ?_
    cases x <;> decide

/-- C4 witness: the amended ordering facts applied at concrete cards: 5 before 3
fails in reverse; a red 5 sorts before the plain Wild; a red 5 (number present)
sorts before a red "+2" (number absent); the plain Wild (action absent) sorts
before the WildDrawFour. -/
theorem C4_amended_witness :
    Card.lt cardR5 { colour := Colour.R, number := some 3, action := none } = false ∧
    Card.lt cardR5 plainWild = true ∧
    Card.lt cardR5 { colour := Colour.R, number := none, action := some Action.DrawTwo } = true ∧
    Card.lt plainWild wildDrawFour = true :=
  ⟨C4_amended.1 _ _ (by decide),
   C4_amended.2.1 plainWild cardR5 rfl (by decide),
   C4_amended.2.2.1 { colour := Colour.R, number := none, action := some Action.DrawTwo }
     cardR5 rfl rfl 5 rfl (by decide),
   C4_amended.2.2.2 plainWild wildDrawFour rfl rfl rfl Action.WildDrawFour rfl⟩

/-- C3 counterexample: with the discard top a WildDrawFour that was resolved to red
(colour "R", action "+4") and a red 5 in hand, checking the unresolved WildDrawFour:
its "+4" action equals the top's action, so the attribute-match branch fires and
playable_card returns true even though a hand card shares the top's colour — the
claim says true is returned only when no hand card shares the top's colour. -/
theorem C3_counterexample :
    playable_card [cardR5] wildDrawFour
      { colour := Colour.R, number := none, action := some Action.WildDrawFour } = true ∧
    cardR5.colour =
      ({ colour := Colour.R, number := none, action := some Action.WildDrawFour } : Card).colour := by
  decide

/-- C3 (amended): when the top card's colour is not Wild and its action is not
WildDrawFour (so the WildDrawFour cannot win through the attribute-match branch),
playable_card returns true for the WildDrawFour only if no card in the player's
hand shares the top card's colour. -/
theorem C3_amended (hand : List Card) (top : Card)
    (hc : top.colour ≠ Colour.W) (ha : top.action ≠ some Action.WildDrawFour)
    (h : playable_card hand wildDrawFour top = true) :
    ∀ x ∈ hand, x.colour ≠ top.colour := by
  have h1 : (wildDrawFour == plainWild) = false := by decide
  have h2 : (attribute_matches wildDrawFour top).contains true = false := by
    have e1 : (wildDrawFour.colour == top.colour) = false :=
      beq_eq_false_iff_ne.mpr (fun he => hc he.symm)
    have e2 : (wildDrawFour.number == top.number && top.number.isSome) = false := by
      cases top.number <;> simp [wildDrawFour]
    have e3 : (wildDrawFour.action == top.action && top.action.isSome) = false := by
      cases hta : top.action with
      | none => simp
      | some x =>
        rw [hta] at ha
        have hne : (wildDrawFour.action == some x) = false :=
          beq_eq_false_iff_ne.mpr (fun he => ha he.symm)
        simp [hne]
    rw [show attribute_matches wildDrawFour top =
          [wildDrawFour.colour == top.colour,
           wildDrawFour.number == top.number && top.number.isSome,
           wildDrawFour.action == top.action && top.action.isSome] from rfl,
      e1, e2, e3]
    decide
  cases hcm : (colour_matches hand top).contains true with
  | true =>
    exfalso
    unfold playable_card at h
    rw [h1, h2, hcm] at h
    simp at h
  | false =>
    intro x hx hxc
    have hmem : (top.colour == x.colour) ∈ colour_matches hand top := by
      unfold colour_matches
      exact List.mem_map_of_mem _ hx
    have hfalse := contains_true_eq_false hcm _ hmem
    rw [beq_eq_false_iff_ne] at hfalse
    exact hfalse hxc.symm

/-- C3 witness: hand [red 5], top blue 7: the WildDrawFour is playable (no blue in
hand) and the amended theorem confirms no hand card shares the top's colour. -/
theorem C3_amended_witness :
    playable_card [cardR5] wildDrawFour cardB7 = true ∧
    ∀ x ∈ [cardR5], x.colour ≠ cardB7.colour :=
  ⟨by decide, C3_amended [cardR5] cardB7 (by decide) (by decide) (by decide)⟩

/-- C5 counterexample: Alice then Bob, equal points. A stable sort keeping the
original relative order would return [Alice, Bob], but standings sorts the
(points, name, player) tuples in reverse, so "Bob" > "Alice" puts Bob first. -/
theorem C5_counterexample :
    standings [playerNamed "Alice", playerNamed "Bob"] =
      [playerNamed "Bob", playerNamed "Alice"] ∧
    (playerNamed "Bob", playerNamed "Alice") ≠ (playerNamed "Alice", playerNamed "Bob") := by
  decide

/-- C5 (amended): standings returns a permutation of the players that is sorted by
points descending with ties broken by NAME descending (the reversed tuple order on
(points, name)), not by original relative order. Distinct (points, name) keys are
assumed: on a full tie the source compares the Player objects themselves and
raises TypeError. -/
theorem C5_amended (players : List PlayerM)
    (_hkeys : (players.map (fun p => (p.points, p.name))).Nodup) :
    (standings players).Perm players ∧
    (standings players).Pairwise (fun a b => keyGt b a = false) :=
  ⟨List.perm_insertionSort standingsRel players,
   List.sorted_insertionSort standingsRel players⟩

/-- C5 witness: the amended theorem applied to [Alice with 3 points, Bob with 5]. -/
theorem C5_amended_witness :
    (([{ name := "Alice", points := 3, hand := [] },
       { name := "Bob", points := 5, hand := [] }] : List PlayerM).map
      (fun p => (p.points, p.name))).Nodup ∧
    ((standings [{ name := "Alice", points := 3, hand := [] },
                 { name := "Bob", points := 5, hand := [] }]).Perm
       [{ name := "Alice", points := 3, hand := [] },
        { name := "Bob", points := 5, hand := [] }] ∧
     (standings [{ name := "Alice", points := 3, hand := [] },
                 { name := "Bob", points := 5, hand := [] }]).Pairwise
       (fun a b => keyGt b a = false)) :=
  ⟨by decide, C5_amended _ (by decide)⟩

/-- C6: State.update follows the transition table — Reverse negates the direction
and clears skip and forced_draw; Skip sets skip with no forced draw; DrawTwo and
WildDrawFour set skip with forced draws 2 and 4; a number card or plain Wild
(action None) clears both; and two Reverses in a row restore the direction while
clearing skip and forced_draw both times. -/
theorem C6_update_table (st : State) (c : Card) :
    (c.action = some Action.Reverse →
      State.update st c = { turn_order := -st.turn_order, skip := 0, forced_draw := 0 }) ∧
    (c.action = some Action.Skip →
      State.update st c = { turn_order := st.turn_order, skip := 1, forced_draw := 0 }) ∧
    (c.action = some Action.DrawTwo →
      State.update st c = { turn_order := st.turn_order, skip := 1, forced_draw := 2 }) ∧
    (c.action = some Action.WildDrawFour →
      State.update st c = { turn_order := st.turn_order, skip := 1, forced_draw := 4 }) ∧
    (c.action = none →
      State.update st c = { turn_order := st.turn_order, skip := 0, forced_draw := 0 }) ∧
    (c.action = some Action.Reverse →
      (State.update (State.update st c) c).turn_order = st.turn_order ∧
      (State.update st c).skip = 0 ∧ (State.update st c).forced_draw = 0 ∧
      (State.update (State.update st c) c).skip = 0 ∧
      (State.update (State.update st c) c).forced_draw = 0) := by
  refine ⟨?_, ?_, ?_, ?_, ?_, ?_⟩ <;> intro hc <;>
    simp [State.update, State.neutralise, hc]

/-- C6 witness: the table applied to a red Reverse on the initial state. -/
theorem C6_update_table_witness :
    cardRrev.action = some Action.Reverse ∧
    State.update stFwd cardRrev = { turn_order := -1, skip := 0, forced_draw := 0 } :=
  ⟨rfl, (C6_update_table stFwd cardRrev).1 rfl⟩

/-- C7: for a non-empty group, start_order places the cursor at 0 when the
direction is +1 and at size-1 when it is -1 (min(direction, 0) mod size with
Python semantics), every advance moves the cursor by the direction modulo the
size, and the 4-player example with direction -1 starts at 3 and decrements
modulo 4 on each advance. -/
theorem C7_start_order (g : Group) (st : State) (hn : 0 < g.players.length) :
    (st.turn_order = 1 → (g.initial st).player_number = 0) ∧
    (st.turn_order = -1 →
      (g.initial st).player_number = (g.players.length : Int) - 1) ∧
    (∀ g' : Group,
      (g'.next st).player_number =
        (g'.player_number + st.turn_order) % (g'.players.length : Int)) ∧
    ((g4.initial stRev).player_number = 3 ∧
     ((g4.initial stRev).next stRev).player_number = 2 ∧
     (((g4.initial stRev).next stRev).next stRev).player_number = 1 ∧
     ((((g4.initial stRev).next stRev).next stRev).next stRev).player_number = 0 ∧
     (((((g4.initial stRev).next stRev).next stRev).next stRev).next stRev).player_number
       = 3) := by
  have h1 : (1 : Int) ≤ (g.players.length : Int) := by exact_mod_cast hn
  refine ⟨?_, ?_, fun g' => rfl, by decide⟩
  · intro ht
    simp [Group.initial, Group.size, ht]
  · intro ht
    unfold Group.initial Group.size
    rw [ht]
    have hmin : min (-1 : Int) 0 = -1 := by decide
    rw [hmin]
    have hshift : ((-1 : Int) + (g.players.length : Int) * 1) % (g.players.length : Int) =
        (-1 : Int) % (g.players.length : Int) :=
      Int.add_mul_emod_self_left (-1) (g.players.length : Int) 1
    rw [← hshift]
    have hsub : (-1 : Int) + (g.players.length : Int) * 1 = (g.players.length : Int) - 1 := by
      ring
    rw [hsub]
    exact Int.emod_eq_of_lt (by omega) (by omega)

/-- C7 witness: a 4-player group: forward start lands on index 0. -/
theorem C7_start_order_witness :
    0 < g4.players.length ∧ stFwd.turn_order = 1 ∧ (g4.initial stFwd).player_number = 0 :=
  ⟨by decide, rfl, (C7_start_order g4 stFwd (by decide)).1 rfl⟩

/-- C8: adding q copies of a Wild-family card appends q fresh, pairwise-distinct
cells (references sigma.length, ..., sigma.length+q-1); resolving the colour of
the i-th copy leaves the j-th copy (j distinct from i) and the original card's cell
unchanged — no aliasing between copies. -/
theorem C8_add_no_alias (sigma : Store) (refs : List Nat) (r : Nat) (c : Card)
    (q i j : Nat) (col : Colour)
    (hr : sigma[r]? = some c) (hW : c.colour = Colour.W)
    (hi : i < q) (hj : j < q) (hij : i ≠ j) :
    (addQuantity sigma refs r q).2 = refs ++ List.range' sigma.length q ∧
    (setColour (addQuantity sigma refs r q).1 (sigma.length + i) col)[sigma.length + j]? =
      some c ∧
    (setColour (addQuantity sigma refs r q).1 (sigma.length + i) col)[r]? = some c := by
  have hrlt : r < sigma.length := (List.getElem?_eq_some.mp hr).1
  rw [addQuantity_spec q sigma refs r c hr hW]
  dsimp only
  have hlook : (sigma ++ List.replicate q c)[sigma.length + i]? = some c := by
    rw [List.getElem?_append_right (by omega), Nat.add_sub_cancel_left,
      List.getElem?_replicate, if_pos hi]
  rw [setColour_of_lookup hlook col]
  refine ⟨rfl, ?_, ?_⟩
  · rw [List.getElem?_set_ne (by omega),
      List.getElem?_append_right (by omega), Nat.add_sub_cancel_left,
      List.getElem?_replicate, if_pos hj]
  · rw [List.getElem?_set_ne (by omega), List.getElem?_append_left hrlt]
    exact hr

/-- C8 witness: one Wild card in the store; add three copies, resolve the first
copy to green: the refs are fresh and the second copy and the original stay Wild. -/
theorem C8_add_no_alias_witness :
    ([plainWild] : Store)[0]? = some plainWild ∧
    ((addQuantity [plainWild] [0] 0 3).2 = [0] ++ List.range' 1 3 ∧
     (setColour (addQuantity [plainWild] [0] 0 3).1 (1 + 0) Colour.G)[1 + 1]? =
       some plainWild ∧
     (setColour (addQuantity [plainWild] [0] 0 3).1 (1 + 0) Colour.G)[0]? =
       some plainWild) := by
  refine ⟨rfl, ?_⟩
  have h := C8_add_no_alias [plainWild] [0] 0 plainWild 3 0 1 Colour.G rfl rfl
    (by decide) (by decide) (by decide)
  exact h

/-- C9: Pile.remove fails (ValueError, modelled none) exactly when no
structurally-equal card is present, and otherwise removes the first
structurally-equal occurrence; Deck.draw fails on an empty deck (IndexError,
modelled none) and otherwise removes and returns the top (last) card. -/
theorem C9_remove_draw (cards : List Card) (c : Card) (d : List Card) (x : Card) :
    (Pile.remove cards c = none ↔ c ∉ cards) ∧
    (c ∈ cards → ∃ l₁ l₂, cards = l₁ ++ c :: l₂ ∧ c ∉ l₁ ∧
      Pile.remove cards c = some (l₁ ++ l₂)) ∧
    Deck.draw ([] : List Card) = none ∧
    Deck.draw (d ++ [x]) = some (x, d) := by
  refine ⟨remove_eq_none_iff cards c, remove_first cards c, rfl, ?_⟩
  unfold Deck.draw
  rw [List.getLast?_concat, List.dropLast_concat]

/-- C9 witness: removing the blue 5 from [red 5, blue 5] removes exactly its first
(only) occurrence. -/
theorem C9_remove_draw_witness :
    cardB5 ∈ [cardR5, cardB5] ∧
    (∃ l₁ l₂, [cardR5, cardB5] = l₁ ++ cardB5 :: l₂ ∧ cardB5 ∉ l₁ ∧
      Pile.remove [cardR5, cardB5] cardB5 = some (l₁ ++ l₂)) :=
  ⟨by decide, (C9_remove_draw [cardR5, cardB5] cardB5 [] cardB5).2.1 (by decide)⟩

/-- C10: in every state reachable from the initial State() by update and
neutralise calls, a positive forced_draw implies skip = 1, and skip = 0 implies
forced_draw = 0. -/
theorem C10_state_inv (ops : List StateOp) :
    (0 < (runOps ops).forced_draw → (runOps ops).skip = 1) ∧
    ((runOps ops).skip = 0 → (runOps ops).forced_draw = 0) := by
  obtain ⟨h1, h2⟩ := runOps_StateInv ops
  refine ⟨h1, fun hs => ?_⟩
  by_cases hf : 0 < (runOps ops).forced_draw
  · have := h1 hf
    omega
  · omega

/-- C10 witness: after one update with a red "+2", forced_draw is 2 and the
invariant yields skip = 1. -/
theorem C10_state_inv_witness :
    0 < (runOps [StateOp.update cardRplus2]).forced_draw ∧
    (runOps [StateOp.update cardRplus2]).skip = 1 :=
  ⟨by decide, (C10_state_inv [StateOp.update cardRplus2]).1 (by decide)⟩

/-- C1: the failing input evaluated. Player A's last card (a red "+2") has just
emptied their hand; the pre-turn state is the initial State() (reachable: runOps []),
and the normal-turn branch was taken (skip is not 1). The win branch then reads
state.forced_draw — still 0, because main.game only calls state.update(played_card)
in the not-won branch — so player B draws nothing (hand sizes stay [0, 1] and the
deck is untouched) and scoring proceeds with B's intact hand (A gains 5), although
the claim requires B to draw 2 cards first. -/
theorem C1_win_no_forced_draw :
    cfgC1.state = runOps [] ∧
    cfgC1.state.skip ≠ 1 ∧
    cfgC1.players.map (fun p => p.hand.length) = [0, 1] ∧
    (gameWinBranch cfgC1).map (fun cf => cf.players.map (fun p => p.hand.length)) =
      some [0, 1] ∧
    (gameWinBranch cfgC1).map (fun cf => cf.players.map (fun p => p.points)) =
      some [5, 0] ∧
    (gameWinBranch cfgC1).map (fun cf => cf.deck.length) = some cfgC1.deck.length := by
  decide

/-- C2: the failing input evaluated. Reshuffling the 5-card discard pile (four
wilds resolved to green under a red 5) into an empty deck: the colour-reset loop
does produce four cards reset to Wild, but line 221 assigns the single top-card
object (not the list of the other four cards) to deck.cards, so the deck holds no
card list at all (deckCardCount is none, and deck.shuffle() raises TypeError) —
the deck cannot gain the 4 cards the claim requires — while the discard pile does
retain exactly the former top card. -/
theorem C2_reset_bug :
    Pile.reset pileC2 = some (Sum.inl topC2, [topC2]) ∧
    (Pile.reset pileC2).bind (fun res => deckCardCount res.1) = none ∧
    pileC2.dropLast.map resetWildColour = List.replicate 4 plainWild := by
  decide

end Uno
